import Mathlib

/- Shallow embedding of src/monitor/monitor.py (marcus-k/usage-monitor).

   Times are rationals standing for seconds on the monotonic clock
   (time.perf_counter).  Calls that read the clock or sleep are embedded by
   passing the current time in and returning the advanced time.  Python
   exceptions are embedded with Except.  The injected usage source
   (psutil.cpu_percent) is a function from the query index to a per-core
   reading, fallible to model C5. -/

namespace UsageMonitor

/- Python exception classes raised by the plot routine. -/
inductive PyError
  | valueError
  | indexError
  deriving DecidableEq

/- BufferTime (monitor.py lines 17-41): a context manager holding exactly one
   field, the buffer duration.  Entering sleeps buffer_time seconds, exiting
   sleeps buffer_time seconds while ignoring the exception arguments, and the
   buffer_time property returns the field unchanged. -/
structure BufferTime where
  buffer_time : ℚ
  deriving DecidableEq

def BufferTime.enter (b : BufferTime) (now : ℚ) : ℚ :=
  now + b.buffer_time

def BufferTime.exit (b : BufferTime) (now : ℚ) (exc : Option String) : ℚ :=
  now + b.buffer_time

/- MonitorCPU state (monitor.py lines 110-119).  The Python fields _cpu_count
   and _buffer_time are spelled cpu_count and buffer_time here. -/
structure MonitorCPU where
  stopped : Bool
  delay : ℚ
  log : List (List ℚ)
  time_log : List ℚ
  start_time : ℚ
  cpu_count : ℕ
  buffer_time : ℚ
  deriving DecidableEq

/- MonitorCPU.__init__ (lines 110-119): records the construction-time clock as
   start_time and the injected core count; performs no validation of delay or
   buffer. -/
def MonitorCPU.init (delay buffer now : ℚ) (cpuCount : ℕ) : MonitorCPU :=
  { stopped := false
    delay := delay
    log := []
    time_log := []
    start_time := now
    cpu_count := cpuCount
    buffer_time := buffer }

/- The constructor call as a fallible operation: the Python __init__ contains
   no raise statement, so every call returns an instance. -/
def MonitorCPU.new (delay buffer now : ℚ) (cpuCount : ℕ) :
    Except PyError MonitorCPU :=
  Except.ok (MonitorCPU.init delay buffer now cpuCount)

/- Thread.start (called by __enter__, line 131): spawns the background thread.
   It reads no clock and writes none of the fields set by __init__; the clock
   argument records the time of the call, which the source ignores. -/
def MonitorCPU.start (m : MonitorCPU) (now : ℚ) : MonitorCPU :=
  m

/- MonitorCPU.__enter__ (lines 130-132): calls self.start() and returns self. -/
def MonitorCPU.enter (m : MonitorCPU) (now : ℚ) : MonitorCPU :=
  m.start now

/- MonitorCPU.stop (lines 127-128): sets the stopped flag, nothing else. -/
def MonitorCPU.stop (m : MonitorCPU) : MonitorCPU :=
  { m with stopped := true }

/- MonitorCPU.__exit__ (lines 134-135): calls self.stop() whatever the
   exception arguments are. -/
def MonitorCPU.exit (m : MonitorCPU) (exc : Option String) : MonitorCPU :=
  m.stop

/- One iteration of the body of MonitorCPU.run (lines 121-125):
   psutil.cpu_percent(self.delay, percpu=True) blocks for delay seconds and
   yields the reading (or raises), then time.perf_counter() - self.start_time
   is appended to time_log, then time.sleep(self.delay) blocks for another
   delay seconds.  queries is indexed by how many samples were taken so far.
   On a raise the exception escapes with the state unchanged. -/
def runStep (queries : ℕ → Except String (List ℚ)) (now : ℚ) (m : MonitorCPU) :
    Except (String × ℚ × MonitorCPU) (ℚ × MonitorCPU) :=
  match queries m.log.length with
  | Except.error e => Except.error (e, now, m)
  | Except.ok reading =>
      Except.ok (now + m.delay + m.delay,
        { m with
          log := m.log ++ [reading]
          time_log := m.time_log ++ [now + m.delay - m.start_time] })

/- MonitorCPU.run (lines 121-125): while not self.stopped, run one iteration.
   The fuel n is the number of iterations performed before the loop observes
   the stop flag set by the other thread; run has no try/except, so an
   exception raised by the query terminates the loop by escaping. -/
def runLoop (queries : ℕ → Except String (List ℚ)) :
    ℕ → ℚ → MonitorCPU → Except (String × ℚ × MonitorCPU) (ℚ × MonitorCPU)
  | 0, now, m => Except.ok (now, m)
  | Nat.succ n, now, m =>
      if m.stopped then Except.ok (now, m)
      else
        match runStep queries now m with
        | Except.error e => Except.error e
        | Except.ok (now2, m2) => runLoop queries n now2 m2

/- The guard of MonitorCPU.plot (lines 137-139): self.time_log[-1] raises
   IndexError on an empty log; otherwise ValueError is raised exactly when
   2 * self._buffer_time > self.time_log[-1], a strict comparison. -/
def MonitorCPU.plotCheck (m : MonitorCPU) : Except PyError Unit :=
  match m.time_log.getLast? with
  | none => Except.error PyError.indexError
  | some last =>
      if 2 * m.buffer_time > last then Except.error PyError.valueError
      else Except.ok ()

/- The row filter used by the averages in plot (lines 152 and 166):
   logical_and(buffer < t, t < last - buffer), strict on both ends. -/
def trimMask (buffer last t : ℚ) : Bool :=
  decide (buffer < t) && decide (t < last - buffer)

/- numpy.mean over a list of rationals. -/
def listMean (xs : List ℚ) : ℚ :=
  xs.sum / (xs.length : ℚ)

/- The per-core average printed by plot (line 166): the mean of column i of
   the log restricted to the rows whose time passes the trim mask, with
   time_log[-1] as the upper reference point. -/
def MonitorCPU.coreAvg (m : MonitorCPU) (i : ℕ) : ℚ :=
  listMean
    (((m.time_log.zip m.log).filter
        (fun p => trimMask m.buffer_time (m.time_log.getLastD 0) p.1)).map
      (fun p => p.2.getD i 0))

/- Runtime (monitor.py lines 174-213).  The printed line is embedded as an
   optional pair of the text and the elapsed value; the Bool is the value
   __exit__ returns to the interpreter (None, falsy), so a propagated
   exception is never suppressed. -/
structure Runtime where
  message : String
  start_time : Option ℚ
  end_time : Option ℚ
  elapsed : Option ℚ
  deriving DecidableEq

def Runtime.init (message : String) : Runtime :=
  { message := message
    start_time := none
    end_time := none
    elapsed := none }

def Runtime.enter (r : Runtime) (now : ℚ) : Runtime :=
  { r with start_time := some now }

def Runtime.exit (r : Runtime) (now : ℚ) (exc : Option String) :
    Runtime × Option (String × ℚ) × Bool :=
  let e := now - r.start_time.getD 0
  let out : Option (String × ℚ) :=
    if r.message = "" then none
    else
      match exc with
      | none => some (r.message, e)
      | some _ => some ("(ended abruptly) " ++ r.message, e)
  ({ r with end_time := some now, elapsed := some e }, out, false)

/-- C1 counterexample: the claim says construction with delay 0, delay -1, or
a negative bufferTime fails with InvalidConfig; the source constructor
validates nothing, so each of these calls returns a normal instance. -/
theorem C1_counterexample :
    MonitorCPU.new 0 0 0 4 = Except.ok (MonitorCPU.init 0 0 0 4) ∧
    MonitorCPU.new (-1) 0 0 4 = Except.ok (MonitorCPU.init (-1) 0 0 4) ∧
    MonitorCPU.new 1 (-1) 0 4 = Except.ok (MonitorCPU.init 1 (-1) 0 4) :=
  ⟨rfl, rfl, rfl⟩

/-- C1 (amended): construction never fails: for every delay and bufferTime,
including non-positive delay and negative bufferTime, the constructor
returns an idle instance with an empty log and stopped = false. -/
theorem C1_amended (delay buffer now : ℚ) (cpuCount : ℕ) :
    MonitorCPU.new delay buffer now cpuCount =
      Except.ok (MonitorCPU.init delay buffer now cpuCount) ∧
    (MonitorCPU.init delay buffer now cpuCount).stopped = false ∧
    (MonitorCPU.init delay buffer now cpuCount).log = [] ∧
    (MonitorCPU.init delay buffer now cpuCount).time_log = [] :=
  ⟨rfl, rfl, rfl, rfl⟩

/-- C3 counterexample: the claim says the summary computation fails when
2 * bufferTime equals the last elapsed time, and fails with RangeError on an
empty log.  The source guard is strict, so at the boundary it succeeds, and
on an empty log the negative index raises IndexError, a different error. -/
theorem C3_counterexample :
    MonitorCPU.plotCheck
        { stopped := false, delay := 1, log := [[0]], time_log := [2],
          start_time := 0, cpu_count := 1, buffer_time := 1 } =
      Except.ok () ∧
    MonitorCPU.plotCheck
        { stopped := false, delay := 1, log := [], time_log := [],
          start_time := 0, cpu_count := 1, buffer_time := 0 } =
      Except.error PyError.indexError := by
  constructor
  · norm_num [MonitorCPU.plotCheck]
  · rfl

/-- C3 (amended): the guard of plot fails with ValueError exactly when the
log is non-empty and 2 * bufferTime is strictly greater than the last
logged elapsed time; at the boundary of equality it succeeds; on an empty
log it fails with IndexError, not ValueError. -/
theorem C3_amended (m : MonitorCPU) :
    (m.plotCheck = Except.error PyError.indexError ↔ m.time_log = []) ∧
    (m.plotCheck = Except.error PyError.valueError ↔
      m.time_log ≠ [] ∧ 2 * m.buffer_time > m.time_log.getLastD 0) ∧
    (m.plotCheck = Except.ok () ↔
      m.time_log ≠ [] ∧ 2 * m.buffer_time ≤ m.time_log.getLastD 0) := by
  unfold MonitorCPU.plotCheck
  rcases h : m.time_log.getLast? with _ | last
  · have hnil : m.time_log = [] := List.getLast?_eq_none_iff.mp h
    simp [hnil]
  · have hne : m.time_log ≠ [] := by
      intro hnil
      rw [hnil] at h
      exact Option.noConfusion h
    have hlast : m.time_log.getLastD 0 = last := by
      rw [List.getLastD_eq_getLast?, h, Option.getD_some]
    rw [hlast]
    by_cases hcmp : 2 * m.buffer_time > last
    · simp [hcmp, hne, not_le.mpr hcmp]
    · simp [hcmp, hne, not_lt.mp hcmp]

/- Helper: when every query succeeds and the monitor is not stopped, the loop
   runs all n iterations, each advancing the clock by twice the delay (the
   blocking query plus the extra sleep) and appending one sample. -/
theorem runLoop_ok_all (queries : ℕ → Except String (List ℚ))
    (hq : ∀ k, ∃ r, queries k = Except.ok r) :
    ∀ (n : ℕ) (now : ℚ) (m : MonitorCPU), m.stopped = false →
      ∃ m2, runLoop queries n now m =
          Except.ok (now + 2 * n * m.delay, m2) ∧
        m2.log.length = m.log.length + n ∧
        m2.time_log.length = m.time_log.length + n ∧
        m2.delay = m.delay ∧ m2.stopped = false ∧
        m2.start_time = m.start_time := by
  intro n
  induction n with
  | zero =>
      intro now m hstop
      exact ⟨m, by simp [runLoop], by simp, by simp, rfl, hstop, rfl⟩
  | succ n ih =>
      intro now m hstop
      obtain ⟨r, hr⟩ := hq m.log.length
      have hstep : runStep queries now m =
          Except.ok (now + m.delay + m.delay,
            { m with
              log := m.log ++ [r]
              time_log := m.time_log ++ [now + m.delay - m.start_time] }) := by
        unfold runStep
        rw [hr]
      obtain ⟨m2, hrun, hlen1, hlen2, hd, hs, hst⟩ :=
        ih (now + m.delay + m.delay)
          { m with
            log := m.log ++ [r]
            time_log := m.time_log ++ [now + m.delay - m.start_time] }
          hstop
      refine ⟨m2, ?_, ?_, ?_, hd, hs, hst⟩
      · unfold runLoop
        rw [hstop]
        rw [if_neg (by simp)]
        rw [hstep]
        dsimp only
        rw [hrun]
        dsimp only
        have harith : now + m.delay + m.delay + 2 * (n : ℚ) * m.delay =
            now + 2 * ((n + 1 : ℕ) : ℚ) * m.delay := by
          push_cast
          ring
        rw [harith]
      · rw [hlen1]
        simp
        omega
      · rw [hlen2]
        simp
        omega

/-- C2 counterexample: the claim predicts a log of about floor(total/delay)
samples within one iteration.  With delay 1 and all queries succeeding, 5
iterations advance the clock from 0 to 10 while appending only 5 samples,
because each iteration blocks delay seconds in the query and then sleeps
another delay seconds; 5 is not within one of floor(10/1) = 10. -/
theorem C2_counterexample :
    runLoop (fun _ => Except.ok [42]) 5 0 (MonitorCPU.init 1 0 0 4) =
      Except.ok (10,
        { stopped := false, delay := 1, log := [[42], [42], [42], [42], [42]],
          time_log := [1, 3, 5, 7, 9], start_time := 0, cpu_count := 4,
          buffer_time := 0 }) ∧
    ¬ ((10 : ℚ) / 1 - 1 ≤ 5 ∧ (5 : ℚ) ≤ 10 / 1 + 1) := by
  constructor
  · norm_num [runLoop, runStep, MonitorCPU.init]
  · norm_num

/-- C2 (amended): one iteration of the poll loop advances the clock by
2 * delay, not delay: the blocking query paces delay seconds and the loop
then sleeps an additional delay seconds.  Hence n iterations from a fresh
monitor take 2 * n * delay seconds and log exactly n samples, so a run for
total seconds produces about total / (2 * delay) samples. -/
theorem C2_amended (queries : ℕ → Except String (List ℚ)) (d b t0 : ℚ)
    (cc n : ℕ) (hq : ∀ k, ∃ r, queries k = Except.ok r) :
    ∃ m2, runLoop queries n t0 (MonitorCPU.init d b t0 cc) =
        Except.ok (t0 + 2 * n * d, m2) ∧ m2.log.length = n := by
  obtain ⟨m2, hrun, hlen, _, _, _, _⟩ :=
    runLoop_ok_all queries hq n t0 (MonitorCPU.init d b t0 cc) rfl
  exact ⟨m2, hrun, by simpa [MonitorCPU.init] using hlen⟩

/-- C2 witness: three successful iterations with delay 1 starting at clock 0
end at clock 6 with three samples. -/
theorem C2_witness :
    ∃ m2, runLoop (fun _ => Except.ok [42]) 3 0 (MonitorCPU.init 1 0 0 4) =
        Except.ok (0 + 2 * ((3 : ℕ) : ℚ) * 1, m2) ∧ m2.log.length = 3 :=
  C2_amended (fun _ => Except.ok [42]) 1 0 0 4 3 (fun _ => ⟨[42], rfl⟩)

/-- C4 counterexample: a monitor constructed at clock 5 and entered at clock
10 keeps start_time = 5, and the first sample logged after entering records
elapsed 6 = 11 - 5, measured from construction, not 1 = 11 - 10 as the claim
predicts for a start reference refreshed at start(). -/
theorem C4_counterexample :
    ((MonitorCPU.init 1 0 5 4).start 10).start_time = 5 ∧
    ((5 : ℚ) ≠ 10) ∧
    runStep (fun _ => Except.ok [42]) 10 ((MonitorCPU.init 1 0 5 4).enter 10) =
      Except.ok (12,
        { stopped := false, delay := 1, log := [[42]], time_log := [6],
          start_time := 5, cpu_count := 4, buffer_time := 0 }) ∧
    ((6 : ℚ) ≠ 1) := by
  refine ⟨rfl, by norm_num, ?_, by norm_num⟩
  norm_num [runStep, MonitorCPU.enter, MonitorCPU.start, MonitorCPU.init]

/-- C4 (amended): start() and the scoped entry leave the monitor unchanged,
in particular start_time keeps the value recorded at construction, so the
elapsed values logged by the poll loop are measured from construction time:
the first sample after entering at clock now records now + delay - t0 where
t0 is the construction-time clock. -/
theorem C4_amended (m : MonitorCPU) (now : ℚ) :
    (m.start now).start_time = m.start_time ∧
    m.enter now = m ∧
    (∀ (queries : ℕ → Except String (List ℚ)) (d b t0 : ℚ) (cc : ℕ)
        (r : List ℚ), queries 0 = Except.ok r →
      runStep queries now ((MonitorCPU.init d b t0 cc).enter now) =
        Except.ok (now + d + d,
          { stopped := false, delay := d, log := [r],
            time_log := [now + d - t0], start_time := t0, cpu_count := cc,
            buffer_time := b })) := by
  refine ⟨rfl, rfl, ?_⟩
  intro queries d b t0 cc r hquery
  unfold MonitorCPU.enter MonitorCPU.start runStep MonitorCPU.init
  simp [hquery]

/-- C4 witness: the amended property at construction clock 5, entry clock 10,
delay 1, with a constant query. -/
theorem C4_witness :
    ((MonitorCPU.init 1 0 5 4).start 10).start_time =
      (MonitorCPU.init 1 0 5 4).start_time ∧
    runStep (fun _ => Except.ok [42]) 10 ((MonitorCPU.init 1 0 5 4).enter 10) =
      Except.ok (10 + 1 + 1,
        { stopped := false, delay := 1, log := [[42]],
          time_log := [10 + 1 - 5], start_time := 5, cpu_count := 4,
          buffer_time := 0 }) :=
  ⟨(C4_amended (MonitorCPU.init 1 0 5 4) 10).1,
   (C4_amended (MonitorCPU.init 1 0 5 4) 10).2.2
     (fun _ => Except.ok [42]) 1 0 5 4 [42] rfl⟩

/-- C5 counterexample: with a source that raises on the first query, the loop
terminates by the escaping exception while the state it leaves behind still
has stopped = false, contrary to the claim that the failure is captured and
forces stopped = true. -/
theorem C5_counterexample :
    runLoop (fun _ => Except.error "boom") 1 0 (MonitorCPU.init 1 0 0 4) =
      Except.error ("boom", 0, MonitorCPU.init 1 0 0 4) ∧
    (MonitorCPU.init 1 0 0 4).stopped = false := by
  constructor
  · rfl
  · rfl

/-- C5 (amended): run has no exception handling: when a query raises, the
exception escapes the loop unchanged and uncaptured, the stopped flag keeps
whatever value it had (so it is not set to true), no error is stored in the
state, and the log keeps exactly the samples appended before the failure. -/
theorem C5_amended (queries : ℕ → Except String (List ℚ)) (n : ℕ)
    (now now2 : ℚ) (m m2 : MonitorCPU) (e : String)
    (h : runLoop queries n now m = Except.error (e, now2, m2)) :
    m2.stopped = m.stopped ∧
    queries m2.log.length = Except.error e ∧
    (∃ ext1 ext2, m2.log = m.log ++ ext1 ∧
      m2.time_log = m.time_log ++ ext2) := by
  induction n generalizing now m with
  | zero => exact absurd h (by simp [runLoop])
  | succ n ih =>
      unfold runLoop at h
      by_cases hstop : m.stopped
      · rw [if_pos hstop] at h
        exact absurd h (by simp)
      · rw [if_neg hstop] at h
        cases hquery : queries m.log.length with
        | error e2 =>
            have hstep : runStep queries now m = Except.error (e2, now, m) := by
              unfold runStep
              rw [hquery]
            rw [hstep] at h
            rw [Except.error.injEq, Prod.mk.injEq, Prod.mk.injEq] at h
            obtain ⟨he, _, hm⟩ := h
            subst he
            subst hm
            exact ⟨rfl, hquery, [], [], by simp, by simp⟩
        | ok r =>
            have hstep : runStep queries now m =
                Except.ok (now + m.delay + m.delay,
                  { m with
                    log := m.log ++ [r]
                    time_log :=
                      m.time_log ++ [now + m.delay - m.start_time] }) := by
              unfold runStep
              rw [hquery]
            rw [hstep] at h
            obtain ⟨h1, h2, ext1, ext2, h3, h4⟩ := ih _ _ h
            refine ⟨h1, h2, [r] ++ ext1,
              [now + m.delay - m.start_time] ++ ext2, ?_, ?_⟩
            · rw [h3]
              simp
            · rw [h4]
              simp

/-- C5 witness: the amended property at the one-shot failing source, where
the escaped state is the untouched fresh monitor. -/
theorem C5_witness :
    (MonitorCPU.init 1 0 0 4).stopped = (MonitorCPU.init 1 0 0 4).stopped ∧
    (fun _ : ℕ => (Except.error "boom" : Except String (List ℚ)))
        (MonitorCPU.init 1 0 0 4).log.length = Except.error "boom" ∧
    (∃ ext1 ext2,
      (MonitorCPU.init 1 0 0 4).log = (MonitorCPU.init 1 0 0 4).log ++ ext1 ∧
      (MonitorCPU.init 1 0 0 4).time_log =
        (MonitorCPU.init 1 0 0 4).time_log ++ ext2) :=
  C5_amended (fun _ => Except.error "boom") 1 0 0 (MonitorCPU.init 1 0 0 4)
    (MonitorCPU.init 1 0 0 4) "boom" rfl

/-- C9: entering a BufferTime scope advances the clock by buffer_time,
exiting advances it by buffer_time again on every exit path, so a scope
whose inner block lasts inner seconds lasts exactly, hence at least,
2 * buffer_time + inner seconds; the span carries no state besides
buffer_time, which is never changed. -/
theorem C9_buffer_span (bt now inner t : ℚ) (exc : Option String)
    (hb : 0 ≤ bt) :
    BufferTime.enter ⟨bt⟩ now - now = bt ∧
    BufferTime.exit ⟨bt⟩ t exc - t = bt ∧
    BufferTime.exit ⟨bt⟩ (BufferTime.enter ⟨bt⟩ now + inner) exc - now =
      2 * bt + inner ∧
    2 * bt + inner ≤
      BufferTime.exit ⟨bt⟩ (BufferTime.enter ⟨bt⟩ now + inner) exc - now ∧
    BufferTime.exit ⟨bt⟩ t exc = BufferTime.exit ⟨bt⟩ t none ∧
    (BufferTime.mk bt).buffer_time = bt ∧
    (∀ b1 b2 : BufferTime, b1.buffer_time = b2.buffer_time → b1 = b2) := by
  refine ⟨by simp [BufferTime.enter], by simp [BufferTime.exit], ?_, ?_, rfl, rfl, ?_⟩
  · simp [BufferTime.enter, BufferTime.exit]; ring
  · simp [BufferTime.enter, BufferTime.exit]; ring_nf; exact le_refl _
  · intro b1 b2 hfield
    cases b1
    cases b2
    simpa using hfield

/-- C9 witness: the scope property at buffer_time 1, entry clock 10, inner
duration 5, exiting through a propagated exception. -/
theorem C9_witness :
    BufferTime.enter ⟨1⟩ 10 - 10 = 1 ∧
    BufferTime.exit ⟨1⟩ 20 (some "boom") - 20 = 1 ∧
    BufferTime.exit ⟨1⟩ (BufferTime.enter ⟨1⟩ 10 + 5) (some "boom") - 10 =
      2 * 1 + 5 ∧
    2 * 1 + 5 ≤
      BufferTime.exit ⟨1⟩ (BufferTime.enter ⟨1⟩ 10 + 5) (some "boom") - 10 ∧
    BufferTime.exit ⟨1⟩ 20 (some "boom") = BufferTime.exit ⟨1⟩ 20 none ∧
    (BufferTime.mk 1).buffer_time = 1 ∧
    (∀ b1 b2 : BufferTime, b1.buffer_time = b2.buffer_time → b1 = b2) :=
  C9_buffer_span 1 10 5 20 (some "boom") (by norm_num)

/- Helper: an element of getLast? is an element of the list. -/
theorem mem_of_getLast? {l : List ℚ} {x : ℚ} (hx : x ∈ l.getLast?) :
    x ∈ l := by
  obtain ⟨h, rfl⟩ := List.mem_getLast?_eq_getLast hx
  exact List.getLast_mem h

/- Helper: the mean of a non-empty constant list is that constant. -/
theorem listMean_const (c : ℚ) (xs : List ℚ) (hne : xs ≠ [])
    (hc : ∀ x ∈ xs, x = c) : listMean xs = c := by
  have hsum : xs.sum = xs.length • c := List.sum_eq_card_nsmul xs c hc
  have hlen : (xs.length : ℚ) ≠ 0 :=
    Nat.cast_ne_zero.mpr (List.length_pos.mpr hne).ne'
  unfold listMean
  rw [hsum, nsmul_eq_mul, mul_div_cancel_left₀ c hlen]

/-- C6: the per-core average of plot is taken over exactly the samples whose
elapsed time lies strictly between bufferTime and lastElapsed - bufferTime,
strict at both ends, and when every logged reading carries the value 42 at
core i and at least one sample passes the trim filter, that average is
exactly 42. -/
theorem C6_trimmed_mean (m : MonitorCPU) (i : ℕ)
    (h42 : ∀ r ∈ m.log, r.getD i 0 = 42)
    (hin : ∃ p ∈ m.time_log.zip m.log,
      trimMask m.buffer_time (m.time_log.getLastD 0) p.1 = true) :
    (∀ t : ℚ, trimMask m.buffer_time (m.time_log.getLastD 0) t = true ↔
      (m.buffer_time < t ∧ t < m.time_log.getLastD 0 - m.buffer_time)) ∧
    m.coreAvg i = 42 := by
  constructor
  · intro t
    simp [trimMask]
  · unfold MonitorCPU.coreAvg
    apply listMean_const
    · obtain ⟨p, hpmem, hpmask⟩ := hin
      have hpf : p ∈ (m.time_log.zip m.log).filter
          (fun q => trimMask m.buffer_time (m.time_log.getLastD 0) q.1) :=
        List.mem_filter.mpr ⟨hpmem, hpmask⟩
      intro hmapnil
      rw [List.map_eq_nil_iff] at hmapnil
      rw [hmapnil] at hpf
      exact absurd hpf (List.not_mem_nil p)
    · intro x hx
      obtain ⟨p, hpf, rfl⟩ := List.mem_map.mp hx
      have hmem := List.of_mem_zip (List.mem_of_mem_filter hpf)
      exact h42 p.2 hmem.2

/-- C6 witness: bufferTime 0 on a log of three samples all reading 42 on core
0 at elapsed times 1, 2, 3: the filter keeps the samples at 1 and 2 and the
per-core average is exactly 42. -/
theorem C6_witness :
    (∀ t : ℚ,
      trimMask
          (MonitorCPU.mk false 1 [[42], [42], [42]] [1, 2, 3] 0 1
            0).buffer_time
          ((MonitorCPU.mk false 1 [[42], [42], [42]] [1, 2, 3] 0 1
            0).time_log.getLastD 0) t = true ↔
      ((MonitorCPU.mk false 1 [[42], [42], [42]] [1, 2, 3] 0 1
          0).buffer_time < t ∧
        t < (MonitorCPU.mk false 1 [[42], [42], [42]] [1, 2, 3] 0 1
            0).time_log.getLastD 0 -
          (MonitorCPU.mk false 1 [[42], [42], [42]] [1, 2, 3] 0 1
            0).buffer_time)) ∧
    (MonitorCPU.mk false 1 [[42], [42], [42]] [1, 2, 3] 0 1 0).coreAvg 0 =
      42 :=
  C6_trimmed_mean (MonitorCPU.mk false 1 [[42], [42], [42]] [1, 2, 3] 0 1 0)
    0
    (by
      intro r hr
      simp only [List.mem_cons, List.not_mem_nil, or_false] at hr
      rcases hr with rfl | rfl | rfl <;> rfl)
    ⟨(1, [42]), by simp [List.zip], by norm_num [trimMask]⟩

/-- C7: the Runtime context manager reports no elapsed value before exit; on
every exit path it records end_time and sets elapsed to end_time minus
start_time, which is non-negative when the clock is monotone; it never
suppresses a propagated exception; it emits output exactly when message is
non-empty, pairing the message with the elapsed value, and on an abnormal
exit the emitted text carries the abrupt-termination marker. -/
theorem C7_runtime (msg : String) (t1 t2 : ℚ) (exc : Option String)
    (hmono : t1 ≤ t2) :
    (Runtime.init msg).elapsed = none ∧
    ((Runtime.init msg).enter t1).elapsed = none ∧
    (((Runtime.init msg).enter t1).exit t2 exc).1.elapsed =
      some (t2 - t1) ∧
    (((Runtime.init msg).enter t1).exit t2 exc).1.end_time = some t2 ∧
    0 ≤ t2 - t1 ∧
    (((Runtime.init msg).enter t1).exit t2 exc).2.2 = false ∧
    ((((Runtime.init msg).enter t1).exit t2 exc).2.1 = none ↔ msg = "") ∧
    (msg ≠ "" → exc = none →
      (((Runtime.init msg).enter t1).exit t2 exc).2.1 =
        some (msg, t2 - t1)) ∧
    (msg ≠ "" → ∀ s, exc = some s →
      (((Runtime.init msg).enter t1).exit t2 exc).2.1 =
        some ("(ended abruptly) " ++ msg, t2 - t1)) := by
  unfold Runtime.init Runtime.enter Runtime.exit
  refine ⟨rfl, rfl, rfl, rfl, by linarith, rfl, ?_, ?_, ?_⟩
  · by_cases hmsg : msg = "" <;> cases exc <;> simp [hmsg]
  · intro hmsg hexc
    subst hexc
    simp [hmsg]
  · intro hmsg s hexc
    subst hexc
    simp [hmsg]

/-- C7 witness: the Runtime properties with the default message, entry at
clock 1, exit at clock 4 through a propagated exception. -/
theorem C7_witness :
    (Runtime.init "Time elapsed").elapsed = none ∧
    ((Runtime.init "Time elapsed").enter 1).elapsed = none ∧
    (((Runtime.init "Time elapsed").enter 1).exit 4
        (some "boom")).1.elapsed = some (4 - 1) ∧
    (((Runtime.init "Time elapsed").enter 1).exit 4
        (some "boom")).1.end_time = some 4 ∧
    (0 : ℚ) ≤ 4 - 1 ∧
    (((Runtime.init "Time elapsed").enter 1).exit 4
        (some "boom")).2.2 = false ∧
    ((((Runtime.init "Time elapsed").enter 1).exit 4
        (some "boom")).2.1 = none ↔ ("Time elapsed" : String) = "") ∧
    (("Time elapsed" : String) ≠ "" → (some "boom" : Option String) = none →
      (((Runtime.init "Time elapsed").enter 1).exit 4
          (some "boom")).2.1 = some ("Time elapsed", 4 - 1)) ∧
    (("Time elapsed" : String) ≠ "" → ∀ s,
      (some "boom" : Option String) = some s →
      (((Runtime.init "Time elapsed").enter 1).exit 4
          (some "boom")).2.1 =
        some ("(ended abruptly) " ++ "Time elapsed", 4 - 1)) :=
  C7_runtime "Time elapsed" 1 4 (some "boom") (by norm_num)

/- Helper: invariants of the poll loop: the two logs keep equal lengths, the
   time log stays sorted, strictly when the delay is positive, and every
   logged elapsed value stays below the current elapsed time. -/
theorem runLoop_chain (queries : ℕ → Except String (List ℚ)) :
    ∀ (n : ℕ) (now now2 : ℚ) (m m2 : MonitorCPU),
      0 ≤ m.delay →
      m.log.length = m.time_log.length →
      List.Chain' (fun a b => a ≤ b) m.time_log →
      (0 < m.delay → List.Chain' (fun a b => a < b) m.time_log) →
      (∀ t ∈ m.time_log, t ≤ now - m.start_time) →
      runLoop queries n now m = Except.ok (now2, m2) →
      m2.log.length = m2.time_log.length ∧
      List.Chain' (fun a b => a ≤ b) m2.time_log ∧
      (0 < m.delay → List.Chain' (fun a b => a < b) m2.time_log) := by
  intro n
  induction n with
  | zero =>
      intro now now2 m m2 _ hlen hch hchs _ h
      simp only [runLoop, Except.ok.injEq, Prod.mk.injEq] at h
      obtain ⟨_, hm⟩ := h
      subst hm
      exact ⟨hlen, hch, hchs⟩
  | succ n ih =>
      intro now now2 m m2 hd hlen hch hchs hub h
      unfold runLoop at h
      by_cases hstop : m.stopped
      · rw [if_pos hstop] at h
        simp only [Except.ok.injEq, Prod.mk.injEq] at h
        obtain ⟨_, hm⟩ := h
        subst hm
        exact ⟨hlen, hch, hchs⟩
      · rw [if_neg hstop] at h
        cases hquery : queries m.log.length with
        | error e =>
            have hstep : runStep queries now m = Except.error (e, now, m) := by
              unfold runStep
              rw [hquery]
            rw [hstep] at h
            exact absurd h (by simp)
        | ok r =>
            have hstep : runStep queries now m =
                Except.ok (now + m.delay + m.delay,
                  { m with
                    log := m.log ++ [r]
                    time_log :=
                      m.time_log ++ [now + m.delay - m.start_time] }) := by
              unfold runStep
              rw [hquery]
            rw [hstep] at h
            have hnewub : ∀ x ∈ m.time_log.getLast?,
                ∀ y ∈ ([now + m.delay - m.start_time] : List ℚ).head?,
                  x ≤ y := by
              intro x hx y hy
              have hxle : x ≤ now - m.start_time :=
                hub x (mem_of_getLast? hx)
              have hyval : y = now + m.delay - m.start_time := by
                simpa using hy.symm
              rw [hyval]
              linarith
            have hch2 : List.Chain' (fun a b => a ≤ b)
                (m.time_log ++ [now + m.delay - m.start_time]) :=
              hch.append (List.chain'_singleton _) hnewub
            have hchs2 : 0 < m.delay → List.Chain' (fun a b => a < b)
                (m.time_log ++ [now + m.delay - m.start_time]) := by
              intro hdpos
              refine (hchs hdpos).append (List.chain'_singleton _) ?_
              intro x hx y hy
              have hxle : x ≤ now - m.start_time :=
                hub x (mem_of_getLast? hx)
              have hyval : y = now + m.delay - m.start_time := by
                simpa using hy.symm
              rw [hyval]
              linarith
            have hub2 : ∀ t ∈ m.time_log ++ [now + m.delay - m.start_time],
                t ≤ now + m.delay + m.delay - m.start_time := by
              intro t ht
              rcases List.mem_append.mp ht with htl | htr
              · have := hub t htl
                linarith
              · have : t = now + m.delay - m.start_time := by
                  simpa using htr
                rw [this]
                linarith
            exact ih (now + m.delay + m.delay) now2
              { m with
                log := m.log ++ [r]
                time_log := m.time_log ++ [now + m.delay - m.start_time] }
              m2 hd (by simp [hlen]) hch2 hchs2 hub2 h

/-- C8: a run of the poll loop from a fresh monitor keeps the log and the
time log the same length at every iteration boundary, each successful
iteration appends exactly one element to each, and the logged elapsed
values are non-decreasing when delay is non-negative and strictly
increasing when delay is positive. -/
theorem C8_log_invariants (queries : ℕ → Except String (List ℚ))
    (d b t0 now2 : ℚ) (cc n : ℕ) (m2 : MonitorCPU) (hd : 0 ≤ d)
    (h : runLoop queries n t0 (MonitorCPU.init d b t0 cc) =
      Except.ok (now2, m2)) :
    m2.log.length = m2.time_log.length ∧
    List.Chain' (fun a b => a ≤ b) m2.time_log ∧
    (0 < d → List.Chain' (fun a b => a < b) m2.time_log) ∧
    (∀ (now : ℚ) (ms : MonitorCPU) (now3 : ℚ) (m3 : MonitorCPU),
      runStep queries now ms = Except.ok (now3, m3) →
      ∃ r t, m3.log = ms.log ++ [r] ∧ m3.time_log = ms.time_log ++ [t] ∧
        m3.stopped = ms.stopped) := by
  obtain ⟨h1, h2, h3⟩ :=
    runLoop_chain queries n t0 now2 (MonitorCPU.init d b t0 cc) m2 hd rfl
      (by simp [MonitorCPU.init]) (fun _ => by simp [MonitorCPU.init])
      (by simp [MonitorCPU.init]) h
  refine ⟨h1, h2, h3, ?_⟩
  intro now ms now3 m3 hstep
  unfold runStep at hstep
  cases hquery : queries ms.log.length with
  | error e =>
      rw [hquery] at hstep
      exact absurd hstep (by simp)
  | ok r =>
      rw [hquery] at hstep
      rw [Except.ok.injEq, Prod.mk.injEq] at hstep
      obtain ⟨_, hm⟩ := hstep
      subst hm
      exact ⟨r, now + ms.delay - ms.start_time, rfl, rfl, rfl⟩

/-- C8 witness: two successful iterations with delay 1 from a fresh monitor
produce logs of equal length two with strictly increasing elapsed times 1
and 3. -/
theorem C8_witness :
    (MonitorCPU.mk false 1 [[42], [42]] [1, 3] 0 4 0).log.length =
      (MonitorCPU.mk false 1 [[42], [42]] [1, 3] 0 4 0).time_log.length ∧
    List.Chain' (fun a b => a ≤ b)
      (MonitorCPU.mk false 1 [[42], [42]] [1, 3] 0 4 0).time_log ∧
    ((0 : ℚ) < 1 → List.Chain' (fun a b => a < b)
      (MonitorCPU.mk false 1 [[42], [42]] [1, 3] 0 4 0).time_log) ∧
    (∀ (now : ℚ) (ms : MonitorCPU) (now3 : ℚ) (m3 : MonitorCPU),
      runStep (fun _ => Except.ok [42]) now ms = Except.ok (now3, m3) →
      ∃ r t, m3.log = ms.log ++ [r] ∧ m3.time_log = ms.time_log ++ [t] ∧
        m3.stopped = ms.stopped) :=
  C8_log_invariants (fun _ => Except.ok [42]) 1 0 0 4 4 2
    (MonitorCPU.mk false 1 [[42], [42]] [1, 3] 0 4 0) (by norm_num)
    (by norm_num [runLoop, runStep, MonitorCPU.init])

/-- C10: stop sets only the stopped flag and leaves every other field
unchanged, it is idempotent, and the scoped exit invokes exactly stop
whatever the exception argument is. -/
theorem C10_stop_frame (m : MonitorCPU) (exc exc2 : Option String) :
    m.stop.stopped = true ∧
    m.stop.delay = m.delay ∧
    m.stop.log = m.log ∧
    m.stop.time_log = m.time_log ∧
    m.stop.start_time = m.start_time ∧
    m.stop.cpu_count = m.cpu_count ∧
    m.stop.buffer_time = m.buffer_time ∧
    m.stop.stop = m.stop ∧
    m.exit exc = m.stop ∧
    m.exit exc = m.exit exc2 := by
  simp [MonitorCPU.stop, MonitorCPU.exit]

end UsageMonitor
